import Mathlib

/-!
Verification of the MyBackTest backtesting core.

The development shallowly embeds the Python sources `main.py` and
`modules.py`: prices are rationals (exact arithmetic in place of IEEE
floats), the per-call local variables of `ema_trend_strategy` are an
explicit record, the EMA calculator attached to the strategy function is
threaded as explicit state, and the `TradeManager`'s dict aliasing
(`positions[instrument] = trade` stores the very object appended to
`trades_log`) is modelled by storing an index into the log.
-/

namespace MyBackTest

/-- Trading actions emitted by the strategy (the strings 'buy', 'sell',
'close' in the source). -/
inductive Sig where
  | buy
  | sell
  | close
deriving DecidableEq, Repr

/-- Trend classification ('bull' / 'bear'; `none` models Python `None`). -/
inductive Trend where
  | bull
  | bear
deriving DecidableEq, Repr

/-- The EMA calculator of `main.py`: window, smoothing factor
`alpha = 2/(window+1)` computed at construction, and the current value
(`none` before the first update). -/
structure EMA where
  window : ℕ
  alpha : ℚ
  value : Option ℚ
deriving DecidableEq, Repr

/-- `EMA.__init__`. -/
def EMA.init (window : ℕ) : EMA :=
  { window := window, alpha := 2 / (window + 1 : ℚ), value := none }

/-- `EMA.update`: seed with the first price, then the standard recursion. -/
def EMA.update (e : EMA) (price : ℚ) : EMA :=
  match e.value with
  | none => { e with value := some price }
  | some v => { e with value := some (e.alpha * price + (1 - e.alpha) * v) }

/-- The EMA obtained from a fresh window-`w` calculator after feeding the
prices of `ps` in order. -/
def emaRun (w : ℕ) (ps : List ℚ) : EMA :=
  ps.foldl EMA.update (EMA.init w)

/-- The six EMA instances `ema_trend_strategy` creates for windows
5/12/20 on the 15m and 1h keys (state the Python code attaches to the
strategy function object itself). -/
structure StratState where
  ema_5_15m : EMA
  ema_12_15m : EMA
  ema_20_15m : EMA
  ema_5_1h : EMA
  ema_12_1h : EMA
  ema_20_1h : EMA
deriving DecidableEq, Repr

/-- The freshly initialised calculator dict (first call, `hasattr` false). -/
def stratInit : StratState :=
  { ema_5_15m := EMA.init 5, ema_12_15m := EMA.init 12, ema_20_15m := EMA.init 20,
    ema_5_1h := EMA.init 5, ema_12_1h := EMA.init 12, ema_20_1h := EMA.init 20 }

/-- The update loop of `ema_trend_strategy`: every one of the six EMAs is
fed the same 15m close price on every call. -/
def StratState.updateAll (s : StratState) (price : ℚ) : StratState :=
  { ema_5_15m := s.ema_5_15m.update price,
    ema_12_15m := s.ema_12_15m.update price,
    ema_20_15m := s.ema_20_15m.update price,
    ema_5_1h := s.ema_5_1h.update price,
    ema_12_1h := s.ema_12_1h.update price,
    ema_20_1h := s.ema_20_1h.update price }

/-- Trend classification from two EMA values (`if a > b: bull elif a < b:
bear else None`). Values are always `some` when this is reached, since
every EMA has been updated at least once earlier in the same call. -/
def trendOf (a b : Option ℚ) : Option Trend :=
  match a, b with
  | some x, some y => if x > y then some Trend.bull else if x < y then some Trend.bear else none
  | _, _ => none

/-- The local variables of one `ema_trend_strategy` call (lines 52-58 of
`main.py` re-initialise all of them on every call). -/
structure StratLocals where
  signal : Option Sig
  position : ℚ
  stop_loss : Option ℚ
  take_profit : Option ℚ
  highest_price : Option ℚ
  lowest_price : Option ℚ
deriving DecidableEq, Repr

/-- `price > x * k` for an optional `x`; the `none` arm is unreachable in
the strategy (guarded by `position` values) and rendered as `false`. -/
def favGt (price : ℚ) (o : Option ℚ) (k : ℚ) : Bool :=
  match o with
  | some x => decide (x * k < price)
  | none => false

/-- `price < x * k` for an optional `x`; `none` arm unreachable. -/
def favLt (price : ℚ) (o : Option ℚ) (k : ℚ) : Bool :=
  match o with
  | some x => decide (price < x * k)
  | none => false

/-- `price <= stop_loss` for an optional stop; `none` arm unreachable
(whenever `position > 0`, a stop has been assigned in the same branch). -/
def leOpt (price : ℚ) (o : Option ℚ) : Bool :=
  match o with
  | some sl => decide (price ≤ sl)
  | none => false

/-- `x * k` on an optional `x` (dead-branch expression `highest_price * 0.9`). -/
def mulOpt (o : Option ℚ) (k : ℚ) : Option ℚ :=
  o.map (fun x => x * k)

/-- One call of `ema_trend_strategy` (main.py lines 6-106): update the six
EMAs with the row's close price, classify the major and minor trend, run
the entry/scale chain on the freshly re-initialised locals, apply the
final stop-loss check, and return the locals together with the persistent
EMA state.  The Python function returns only `signal`; the other locals
are exposed here for analysis. -/
def ema_trend_strategy (s : StratState) (price : ℚ) : StratLocals × StratState :=
  let su := s.updateAll price
  let major_trend := trendOf su.ema_12_1h.value su.ema_20_1h.value
  let minor_trend := trendOf su.ema_5_15m.value su.ema_12_15m.value
  let l : StratLocals :=
    { signal := none, position := 0, stop_loss := none, take_profit := none,
      highest_price := none, lowest_price := none }
  let l :=
    if major_trend = some Trend.bull ∧ minor_trend = some Trend.bull then
      if l.position = 0 then
        { l with signal := some Sig.buy, position := 0.2,
                 stop_loss := some (price * 0.9), highest_price := some price }
      else if l.position = 0.2 ∧ favGt price l.highest_price 1.1 = true then
        { l with signal := some Sig.buy, position := 0.5,
                 stop_loss := mulOpt l.highest_price 0.9, highest_price := some price }
      else if l.position = 0.5 ∧ favGt price l.highest_price 1.2 = true then
        { l with signal := some Sig.buy, position := 1.0,
                 stop_loss := mulOpt l.highest_price 0.9, highest_price := some price }
      else l
    else if major_trend = some Trend.bear ∧ minor_trend = some Trend.bear then
      if l.position = 0 then
        { l with signal := some Sig.sell, position := 0.2,
                 stop_loss := some (price * 1.1), lowest_price := some price }
      else if l.position = 0.2 ∧ favLt price l.lowest_price 0.9 = true then
        { l with signal := some Sig.sell, position := 0.5,
                 stop_loss := mulOpt l.lowest_price 1.1, lowest_price := some price }
      else if l.position = 0.5 ∧ favLt price l.lowest_price 0.8 = true then
        { l with signal := some Sig.sell, position := 1.0,
                 stop_loss := mulOpt l.lowest_price 1.1, lowest_price := some price }
      else l
    else l
  let l :=
    if l.position > 0 ∧ leOpt price l.stop_loss = true then
      { l with signal := some Sig.close }
    else l
  (l, su)

/-- `StrategyEngine.run_strategy` specialised to the reference strategy:
visit the prices in order, call the strategy on each row, and collect
`(index, signal)` for every non-null signal, threading the
function-attached EMA state through the whole iteration. -/
def runStrategyAux : StratState → List ℚ → ℕ → List (ℕ × Sig) × StratState
  | s, [], _ => ([], s)
  | s, p :: ps, i =>
    let r := ema_trend_strategy s p
    let rest := runStrategyAux r.2 ps (i + 1)
    match r.1.signal with
    | some sig => ((i, sig) :: rest.1, rest.2)
    | none => rest

/-- Run the engine over a price path from a given EMA state, returning the
signal sequence and the EMA state left behind on the strategy function. -/
def run_strategy (s : StratState) (prices : List ℚ) : List (ℕ × Sig) × StratState :=
  runStrategyAux s prices 0

/-- Two consecutive engine runs over the same price path, as executed by
the Python process: the EMA calculator attached to the strategy function
is NOT re-initialised, so the second run starts from the state the first
run left behind. -/
def runTwicePersist (prices : List ℚ) : List (ℕ × Sig) × List (ℕ × Sig) :=
  let r1 := run_strategy stratInit prices
  let r2 := run_strategy r1.2 prices
  (r1.1, r2.1)

/-- A trade record as built by `TradeManager.execute_trade` (`modules.py`
lines 96-105).  `close_price` models the dict key of that name read by
`ResultAnalyzer.generate_report`: `none` means the key is absent (it is
never written by `execute_trade`), and reading it then raises `KeyError`. -/
structure Trade where
  instrument : String
  time : ℕ
  signal : Sig
  price : ℚ
  stop_loss : ℚ
  take_profit : Option ℚ
  highest_price : Option ℚ
  lowest_price : Option ℚ
  close_price : Option ℚ
deriving DecidableEq, Repr

/-- The dict literal of `execute_trade`. -/
def mkTrade (signal : Sig) (current_time : ℕ) (price : ℚ) (instrument : String) : Trade :=
  { instrument := instrument, time := current_time, signal := signal, price := price,
    stop_loss := if signal = Sig.buy then price * 0.9 else price * 1.1,
    take_profit := none,
    highest_price := if signal = Sig.buy then some price else none,
    lowest_price := if signal = Sig.sell then some price else none,
    close_price := none }

/-- `TradeManager` state.  In Python, `positions[instrument] = trade`
stores the very dict object appended to `trades_log`, so a position IS an
alias of a log entry; the alias is modelled by an index into
`trades_log`, and mutation through the alias writes the log at that
index. -/
structure TradeManager where
  trades_log : List Trade
  positions : List (String × ℕ)
deriving DecidableEq, Repr

/-- `TradeManager.__init__`. -/
def TradeManager.init : TradeManager :=
  { trades_log := [], positions := [] }

/-- Python dict assignment `positions[instrument] = idx` (insertion order
preserved, existing key overwritten in place). -/
def setPos : List (String × ℕ) → String → ℕ → List (String × ℕ)
  | [], instrument, idx => [(instrument, idx)]
  | (k, v) :: rest, instrument, idx =>
    if k = instrument then (k, idx) :: rest else (k, v) :: setPos rest instrument idx

/-- Python dict lookup `positions[instrument]`. -/
def lookupPos : List (String × ℕ) → String → Option ℕ
  | [], _ => none
  | (k, v) :: rest, instrument => if k = instrument then some v else lookupPos rest instrument

/-- `TradeManager.execute_trade`: unconditionally build the trade dict,
append it to the log, and point `positions[instrument]` at it. -/
def TradeManager.execute_trade (tm : TradeManager) (signal : Sig) (current_time : ℕ)
    (price : ℚ) (instrument : String) : TradeManager :=
  { trades_log := tm.trades_log ++ [mkTrade signal current_time price instrument],
    positions := setPos tm.positions instrument tm.trades_log.length }

/-- The per-position body of `TradeManager.update_stop_loss`: ratchet the
extreme in the favorable direction and recompute the stop from it.  The
`none` arms are unreachable (a 'buy' trade always carries
`highest_price`, a 'sell' trade always carries `lowest_price`). -/
def updateTradeStop (t : Trade) (current_price : ℚ) : Trade :=
  if t.signal = Sig.buy then
    match t.highest_price with
    | some h => { t with highest_price := some (max h current_price),
                         stop_loss := max h current_price * 0.9 }
    | none => t
  else if t.signal = Sig.sell then
    match t.lowest_price with
    | some lo => { t with lowest_price := some (min lo current_price),
                          stop_loss := min lo current_price * 1.1 }
    | none => t
  else t

/-- `TradeManager.update_stop_loss`: for every instrument in `positions`,
mutate the aliased log entry using that instrument's current 1m close
price (`price_data` maps an instrument to that price). -/
def TradeManager.update_stop_loss (tm : TradeManager) (price_data : String → ℚ) :
    TradeManager :=
  { tm with trades_log :=
      tm.positions.foldl (fun log kv =>
        match log.get? kv.2 with
        | some t => log.set kv.2 (updateTradeStop t (price_data kv.1))
        | none => log) tm.trades_log }

/-- The trade created by a buy entry at `entry`, after a sequence of
`update_stop_loss` steps at the prices of `ps` — the evolution of one
open long position. -/
def tradeAfter (signal : Sig) (entry : ℚ) (ps : List ℚ) : Trade :=
  ps.foldl updateTradeStop (mkTrade signal 0 entry "X")

/-- The stop-loss carried by that evolving position. -/
def stopAfter (signal : Sig) (entry : ℚ) (ps : List ℚ) : ℚ :=
  (tradeAfter signal entry ps).stop_loss

/-- Result of `ResultAnalyzer.generate_report`: `{}` for an empty log,
`KeyError` when a buy/sell record lacks `close_price`, otherwise the
report dict. -/
inductive ReportResult where
  | empty
  | keyError
  | report (initial_balance final_balance total_return : ℚ)
deriving DecidableEq, Repr

/-- The balance loop of `generate_report`: compound `close/entry` for buys
and `entry/close` for sells; `none` models the `KeyError` raised on a
missing `close_price`. -/
def reportBalance : ℚ → List Trade → Option ℚ
  | b, [] => some b
  | b, t :: ts =>
    match t.signal with
    | Sig.buy =>
      match t.close_price with
      | some cp => reportBalance (b * (cp / t.price)) ts
      | none => none
    | Sig.sell =>
      match t.close_price with
      | some cp => reportBalance (b * (t.price / cp)) ts
      | none => none
    | Sig.close => reportBalance b ts

/-- `ResultAnalyzer.generate_report` (modules.py lines 134-156). -/
def generate_report (trades_log : List Trade) : ReportResult :=
  if trades_log = [] then ReportResult.empty
  else
    match reportBalance 100000 trades_log with
    | none => ReportResult.keyError
    | some balance => ReportResult.report 100000 balance ((balance - 100000) / 100000)

/-- `DataHandler.merge_data` (modules.py lines 24-40), generic over the
frame type: start from `merged_df = None`, and for every
(instrument, period) pair load the frame, rename its columns with the
`instrument_period_` text, and either seat it as the first frame or
outer-join it onto the accumulator.  Returns `none` exactly when the
loops never execute. -/
def merge_data {Frame : Type} (load_local_data : String → String → Frame)
    ( add_prefix : String → Frame → Frame) (join : Frame → Frame → Frame)
    (instruments periods : List String) : Option Frame :=
  instruments.foldl (fun merged_df instrument =>
    periods.foldl (fun merged_df period =>
      let df := add_prefix (instrument ++ "_" ++ period ++ "_") (load_local_data instrument period)
      match merged_df with
      | none => some df
      | some m => some (join m df)) merged_df) none

/-! ### Helper lemmas -/

lemma EMA.foldl_alpha (ps : List ℚ) : ∀ e : EMA, (ps.foldl EMA.update e).alpha = e.alpha := by
  induction ps with
  | nil => intro e; rfl
  | cons p ps ih =>
    intro e
    rw [List.foldl_cons, ih]
    unfold EMA.update
    cases e.value <;> rfl

lemma emaRun_alpha (w : ℕ) (ps : List ℚ) : (emaRun w ps).alpha = 2 / (w + 1 : ℚ) := by
  rw [emaRun, EMA.foldl_alpha]
  rfl

lemma le_foldl_max (a : ℚ) (qs : List ℚ) : a ≤ qs.foldl max a := by
  induction qs generalizing a with
  | nil => exact le_refl a
  | cons q qs ih =>
    rw [List.foldl_cons]
    exact le_trans (le_max_left a q) (ih (max a q))

lemma foldl_min_le (a : ℚ) (qs : List ℚ) : qs.foldl min a ≤ a := by
  induction qs generalizing a with
  | nil => exact le_refl a
  | cons q qs ih =>
    rw [List.foldl_cons]
    exact le_trans (ih (min a q)) (min_le_left a q)

lemma foldl_max_of_le (qs : List ℚ) : ∀ a : ℚ, (∀ q ∈ qs, q ≤ a) → qs.foldl max a = a := by
  induction qs with
  | nil => intro a _; rfl
  | cons q qs ih =>
    intro a hqs
    rw [List.foldl_cons, max_eq_left (hqs q (by simp))]
    exact ih a (fun x hx => hqs x (by simp [hx]))

lemma foldl_updateTradeStop_buy (ps : List ℚ) :
    ∀ (t : Trade) (h : ℚ), t.signal = Sig.buy → t.highest_price = some h →
      (ps.foldl updateTradeStop t).signal = Sig.buy ∧
      (ps.foldl updateTradeStop t).highest_price = some (ps.foldl max h) ∧
      (ps = [] → (ps.foldl updateTradeStop t).stop_loss = t.stop_loss) ∧
      (ps ≠ [] → (ps.foldl updateTradeStop t).stop_loss = ps.foldl max h * 0.9) := by
  induction ps with
  | nil =>
    intro t h h1 h2
    exact ⟨h1, by simpa using h2, fun _ => rfl, fun hne => absurd rfl hne⟩
  | cons p ps ih =>
    intro t h h1 h2
    have hstep : updateTradeStop t p =
        { t with highest_price := some (max h p), stop_loss := max h p * 0.9 } := by
      simp [updateTradeStop, h1, h2]
    rw [List.foldl_cons, hstep]
    obtain ⟨g1, g2, g3, g4⟩ := ih { t with highest_price := some (max h p),
                                           stop_loss := max h p * 0.9 } (max h p) h1 rfl
    refine ⟨g1, by simpa using g2, fun habs => absurd habs (by simp), fun _ => ?_⟩
    rcases List.eq_nil_or_concat ps with hnil | _
    · subst hnil; simpa using g3 rfl
    · rw [List.foldl_cons]
      rcases Decidable.em (ps = []) with hnil | hne
      · subst hnil; simpa using g3 rfl
      · simpa using g4 hne

lemma foldl_updateTradeStop_sell (ps : List ℚ) :
    ∀ (t : Trade) (h : ℚ), t.signal = Sig.sell → t.lowest_price = some h →
      (ps.foldl updateTradeStop t).signal = Sig.sell ∧
      (ps.foldl updateTradeStop t).lowest_price = some (ps.foldl min h) ∧
      (ps = [] → (ps.foldl updateTradeStop t).stop_loss = t.stop_loss) ∧
      (ps ≠ [] → (ps.foldl updateTradeStop t).stop_loss = ps.foldl min h * 1.1) := by
  induction ps with
  | nil =>
    intro t h h1 h2
    exact ⟨h1, by simpa using h2, fun _ => rfl, fun hne => absurd rfl hne⟩
  | cons p ps ih =>
    intro t h h1 h2
    have hsig : ¬ (t.signal = Sig.buy) := by rw [h1]; intro hc; cases hc
    have hstep : updateTradeStop t p =
        { t with lowest_price := some (min h p), stop_loss := min h p * 1.1 } := by
      simp [updateTradeStop, h1, hsig, h2]
    rw [List.foldl_cons, hstep]
    obtain ⟨g1, g2, g3, g4⟩ := ih { t with lowest_price := some (min h p),
                                           stop_loss := min h p * 1.1 } (min h p) h1 rfl
    refine ⟨g1, by simpa using g2, fun habs => absurd habs (by simp), fun _ => ?_⟩
    rw [List.foldl_cons]
    rcases Decidable.em (ps = []) with hnil | hne
    · subst hnil; simpa using g3 rfl
    · simpa using g4 hne

lemma stopAfter_buy_eq (entry : ℚ) (ps : List ℚ) :
    stopAfter Sig.buy entry ps = ps.foldl max entry * 0.9 := by
  obtain ⟨_, _, g3, g4⟩ :=
    foldl_updateTradeStop_buy ps (mkTrade Sig.buy 0 entry "X") entry (by simp [mkTrade])
      (by simp [mkTrade])
  rcases Decidable.em (ps = []) with hnil | hne
  · subst hnil
    rw [stopAfter, tradeAfter]
    simpa [mkTrade] using g3 rfl
  · rw [stopAfter, tradeAfter]
    exact g4 hne

lemma stopAfter_sell_eq (entry : ℚ) (ps : List ℚ) :
    stopAfter Sig.sell entry ps = ps.foldl min entry * 1.1 := by
  obtain ⟨_, _, g3, g4⟩ :=
    foldl_updateTradeStop_sell ps (mkTrade Sig.sell 0 entry "X") entry (by simp [mkTrade])
      (by simp [mkTrade])
  rcases Decidable.em (ps = []) with hnil | hne
  · subst hnil
    rw [stopAfter, tradeAfter]
    simpa [mkTrade] using g3 rfl
  · rw [stopAfter, tradeAfter]
    exact g4 hne

lemma lookup_setPos (ps : List (String × ℕ)) (i : String) (n : ℕ) :
    lookupPos (setPos ps i n) i = some n := by
  induction ps with
  | nil => simp [setPos, lookupPos]
  | cons kv rest ih =>
    obtain ⟨k, v⟩ := kv
    by_cases h : k = i
    · simp [setPos, lookupPos, h]
    · simp [setPos, lookupPos, h, ih]

/-! ### Claims -/

/-- C6: for every EMA instance with window `w` and every price sequence,
the value after the first update equals the first price, and the value
after each subsequent update with price `p` equals
`alpha*p + (1-alpha)*previous` with `alpha = 2/(w+1)`. -/
theorem thm_C6 (w : ℕ) (p v : ℚ) (ps : List ℚ) :
    (emaRun w [p]).value = some p ∧
    ((emaRun w ps).value = some v →
      (emaRun w (ps ++ [p])).value =
        some ((2 / (w + 1 : ℚ)) * p + (1 - 2 / (w + 1 : ℚ)) * v)) := by
  constructor
  · simp [emaRun, EMA.init, EMA.update]
  · intro hv
    have h1 : emaRun w (ps ++ [p]) = (emaRun w ps).update p := by
      simp [emaRun, List.foldl_append]
    rw [h1, EMA.update, hv, emaRun_alpha]

/-- Witness for C6 at `w = 5`, prices `[3]` then `7`. -/
theorem wit_C6 :
    (emaRun 5 [3]).value = some 3 ∧
    (emaRun 5 ([3] ++ [7])).value =
      some ((2 / (5 + 1 : ℚ)) * 7 + (1 - 2 / (5 + 1 : ℚ)) * 3) :=
  ⟨(thm_C6 5 3 0 []).1, (thm_C6 5 7 3 [3]).2 (thm_C6 5 3 0 []).1⟩

/-- C3: a long position's trailing stop is monotonically non-decreasing
across any sequence of `update_stop_loss` prices, is frozen (unchanged)
while no new high is made, and a short position's stop is non-increasing. -/
theorem thm_C3 (entry : ℚ) (ps qs : List ℚ)
    (hpos : 0 < entry ∧ ∀ q ∈ ps ++ qs, 0 < q) :
    (stopAfter Sig.buy entry ps ≤ stopAfter Sig.buy entry (ps ++ qs)) ∧
    ((∀ q ∈ qs, q ≤ ps.foldl max entry) →
      stopAfter Sig.buy entry (ps ++ qs) = stopAfter Sig.buy entry ps) ∧
    (stopAfter Sig.sell entry (ps ++ qs) ≤ stopAfter Sig.sell entry ps) := by
  clear hpos
  rw [stopAfter_buy_eq, stopAfter_buy_eq, stopAfter_sell_eq, stopAfter_sell_eq,
    List.foldl_append, List.foldl_append]
  refine ⟨?_, ?_, ?_⟩
  · exact mul_le_mul_of_nonneg_right (le_foldl_max _ qs) (by norm_num)
  · intro hfr
    rw [foldl_max_of_le qs _ hfr]
  · exact mul_le_mul_of_nonneg_right (foldl_min_le _ qs) (by norm_num)

/-- Witness for C3: entry 100, rise to 110, then fall to 105. -/
theorem wit_C3 :
    (stopAfter Sig.buy 100 [110] ≤ stopAfter Sig.buy 100 ([110] ++ [105])) ∧
    ((∀ q ∈ [(105 : ℚ)], q ≤ [(110 : ℚ)].foldl max 100) →
      stopAfter Sig.buy 100 ([110] ++ [105]) = stopAfter Sig.buy 100 [110]) ∧
    (stopAfter Sig.sell 100 ([110] ++ [105]) ≤ stopAfter Sig.sell 100 [110]) :=
  thm_C3 100 [110] [105] ⟨by norm_num, by norm_num⟩

/-- C7: `generate_report` on a single completed long round trip
(entry 100, close 110) yields `total_return = 0.10` on the hardcoded
100000 initial balance, and the balance loop compounds `close/entry` for
buys and `entry/close` for sells. -/
theorem thm_C7 (b cp : ℚ) (t : Trade) :
    generate_report [{ instrument := "X", time := 0, signal := Sig.buy, price := 100,
                       stop_loss := 90, take_profit := none, highest_price := some 100,
                       lowest_price := none, close_price := some 110 }]
        = ReportResult.report 100000 110000 (1 / 10) ∧
    (t.close_price = some cp →
      reportBalance b [t] =
        some (match t.signal with
              | Sig.buy => b * (cp / t.price)
              | Sig.sell => b * (t.price / cp)
              | Sig.close => b)) := by
  constructor
  · norm_num [generate_report, reportBalance]
  · intro hcp
    cases hsig : t.signal <;> simp [reportBalance, hsig, hcp]

/-- Witness for C7's compounding clause on a short trade
(entry 50, close 100). -/
theorem wit_C7 :
    reportBalance 7 [{ instrument := "Y", time := 1, signal := Sig.sell, price := 50,
                       stop_loss := 55, take_profit := none, highest_price := none,
                       lowest_price := some 50, close_price := some 100 }]
      = some ((7 : ℚ) * (50 / 100)) :=
  (thm_C7 7 100 _).2 rfl

/-- C8 counterexample: a second 'buy' for an instrument that already has
an open position changes the trade log (it is appended to), so
`execute_trade` is not a no-op there. -/
theorem cex_C8 :
    ((TradeManager.init.execute_trade Sig.buy 0 100 "ABC").execute_trade Sig.buy 1 100 "ABC").trades_log
      ≠ (TradeManager.init.execute_trade Sig.buy 0 100 "ABC").trades_log := by
  intro h
  have hlen := congrArg List.length h
  simp [TradeManager.execute_trade, TradeManager.init] at hlen

/-- C8 amended: executing any signal for an instrument that already has a
position is never skipped — `execute_trade` unconditionally appends a new
trade record and repoints the instrument's position at it. -/
theorem thm_C8 (tm : TradeManager) (signal : Sig) (current_time : ℕ) (price : ℚ)
    (instrument : String) :
    (tm.execute_trade signal current_time price instrument).trades_log
      = tm.trades_log ++ [mkTrade signal current_time price instrument] ∧
    lookupPos (tm.execute_trade signal current_time price instrument).positions instrument
      = some tm.trades_log.length := by
  exact ⟨rfl, lookup_setPos tm.positions instrument tm.trades_log.length⟩

/-- C9 counterexample: merging an empty instrument list returns the null
frame (`None`), not a configuration error. -/
theorem cex_C9 :
    @merge_data ℕ (fun _ _ => 0) (fun _ df => df) (fun a _ => a) [] ["15m"] = none :=
  rfl

/-- C9 amended: merging with an empty instrument set or an empty period
set silently returns `None` (the initial accumulator); no exception is
raised. -/
theorem thm_C9 {Frame : Type} (load_local_data : String → String → Frame)
    (pre : String → Frame → Frame) (join : Frame → Frame → Frame)
    (instruments periods : List String) :
    merge_data load_local_data pre join [] periods = none ∧
    merge_data load_local_data pre join instruments [] = none := by
  constructor
  · rfl
  · induction instruments with
    | nil => rfl
    | cons i is ih => simpa [merge_data] using ih

/-- C1: code evaluated at the failing input.  On the bull-aligned path
100 → 111 (111 exceeds 110, i.e. 1.1 times the extreme recorded at
entry), the second call re-enters at 20% with stop `111 * 0.9` — it does
not scale to 50% — because `position` is a local re-initialised to 0 on
every call, so the tier-2 branch can never execute. -/
theorem thm_C1 :
    ((ema_trend_strategy (ema_trend_strategy stratInit 100).2 111).1.signal = some Sig.buy) ∧
    ((ema_trend_strategy (ema_trend_strategy stratInit 100).2 111).1.position = 0.2) ∧
    ((ema_trend_strategy (ema_trend_strategy stratInit 100).2 111).1.stop_loss
      = some (111 * 0.9)) ∧
    ((ema_trend_strategy (ema_trend_strategy stratInit 100).2 111).1.position ≠ 0.5) := by
  norm_num [ema_trend_strategy, stratInit, StratState.updateAll, EMA.init, EMA.update,
    trendOf, favGt, favLt, leOpt, mulOpt]

/-- C2: code evaluated at the failing input.  On the bear-aligned path
100 → 90 the short entry sets `stop_loss = 90 * 1.1 = 99`; the price 90
has not crossed that stop adversely for a short (90 < 99), yet the final
check `position > 0 and price <= stop_loss` fires and the row's signal is
'close' — the long-side comparison is applied to the short position. -/
theorem thm_C2 :
    ((ema_trend_strategy (ema_trend_strategy stratInit 100).2 90).1.signal = some Sig.close) ∧
    ((ema_trend_strategy (ema_trend_strategy stratInit 100).2 90).1.stop_loss = some 99) ∧
    ¬((99 : ℚ) ≤ 90) := by
  refine ⟨?_, ?_, by norm_num⟩ <;>
  · norm_num [ema_trend_strategy, stratInit, StratState.updateAll, EMA.init, EMA.update,
      trendOf, favGt, favLt, leOpt, mulOpt]
    simp
    norm_num

/-- C4: code evaluated at the failing input.  After a buy at price 100
the logged trade carries `stop_loss = 90`, `highest_price = 100`; one
`update_stop_loss` call at price 120 rewrites that very log entry to
`stop_loss = 108`, `highest_price = 120`, because `positions` aliases the
appended record. -/
theorem thm_C4 :
    ((TradeManager.init.execute_trade Sig.buy 0 100 "X").trades_log.map Trade.stop_loss
      = [90]) ∧
    ((TradeManager.init.execute_trade Sig.buy 0 100 "X").trades_log.map Trade.highest_price
      = [some 100]) ∧
    (((TradeManager.init.execute_trade Sig.buy 0 100 "X").update_stop_loss
        (fun _ => 120)).trades_log.map Trade.stop_loss = [108]) ∧
    (((TradeManager.init.execute_trade Sig.buy 0 100 "X").update_stop_loss
        (fun _ => 120)).trades_log.map Trade.highest_price = [some 120]) := by
  norm_num [TradeManager.init, TradeManager.execute_trade, TradeManager.update_stop_loss,
    mkTrade, updateTradeStop, setPos, max_def]

/-- C5 counterexample: two consecutive engine runs over the price path
[100, 111] give different signal sequences — the first run emits only
(1, buy), the second, starting from the EMA state the first run left on
the strategy function, also emits (0, buy). -/
theorem cex_C5 :
    (runTwicePersist [100, 111]).1 ≠ (runTwicePersist [100, 111]).2 := by
  norm_num [runTwicePersist, run_strategy, runStrategyAux, ema_trend_strategy, stratInit,
    StratState.updateAll, EMA.init, EMA.update, trendOf, favGt, favLt, leOpt, mulOpt]
  simp
  norm_num

/-- C5 amended: the signal sequence is a function of the table and of the
indicator state the run starts from; two runs agree whenever the second
starts from the same (e.g. freshly initialised) EMA state as the first,
but the reference keeps the EMA state on the strategy function across
runs, so a literal second run can differ. -/
theorem thm_C5 (prices : List ℚ) (s₁ s₂ : StratState) (h : s₁ = s₂) :
    (run_strategy s₁ prices).1 = (run_strategy s₂ prices).1 := by
  rw [h]

/-- Witness for C5 at the path [100, 111] from the fresh state. -/
theorem wit_C5 :
    (run_strategy stratInit [100, 111]).1 = (run_strategy stratInit [100, 111]).1 :=
  thm_C5 [100, 111] stratInit stratInit rfl

/-- C10: on every row whose updated EMAs classify both trends as bear and
whose close price is positive, the strategy returns 'close' and never
'sell': the short entry sets `position = 0.2` and
`stop_loss = price * 1.1`, after which `position > 0 and
price <= stop_loss` always holds and overwrites the signal. -/
theorem thm_C10 (s : StratState) (price : ℚ) (hp : 0 < price)
    (hmaj : trendOf (s.updateAll price).ema_12_1h.value (s.updateAll price).ema_20_1h.value
        = some Trend.bear)
    (hmin : trendOf (s.updateAll price).ema_5_15m.value (s.updateAll price).ema_12_15m.value
        = some Trend.bear) :
    (ema_trend_strategy s price).1.signal = some Sig.close ∧
    (ema_trend_strategy s price).1.signal ≠ some Sig.sell := by
  have hle : price ≤ price * (11 / 10) := by nlinarith
  have hs : (ema_trend_strategy s price).1.signal = some Sig.close := by
    simp only [ema_trend_strategy, hmaj, hmin]
    norm_num [leOpt]
    simp [hle]
  exact ⟨hs, by simp [hs]⟩

/-- Witness for C10: the bear-aligned state reached from the fresh state
by the path 200 → 100. -/
theorem wit_C10 :
    (ema_trend_strategy (ema_trend_strategy stratInit 200).2 100).1.signal = some Sig.close ∧
    (ema_trend_strategy (ema_trend_strategy stratInit 200).2 100).1.signal ≠ some Sig.sell := by
  refine thm_C10 _ 100 (by norm_num) ?_ ?_ <;>
  · norm_num [ema_trend_strategy, stratInit, StratState.updateAll, EMA.init, EMA.update,
      trendOf, favGt, favLt, leOpt, mulOpt]

end MyBackTest
